import Mathlib

/-!
# Verification of the DPTools simulation-dispatch and ensemble-sampling core

Shallow embedding of the core logic of the DPTools repository:

* `dptools/utils.py` — type-map utilities (`check_type_map`, `typemap2str`,
  `str2typemap`) and the 0-based → 1-based ("engine local") index shift used in
  `read_dump` and `DeepMD.set_types`;
* `dptools/train/ensemble.py` — `SampleConfigs.get_dev` (cached ensemble
  deviation record) and `SampleConfigs.sample` (bounded random band selection);
* `dptools/simulate/simulations.py` — the per-simulation-type command builders
  (`SPE`, `Opt`, `CellOpt`, `NVT`, `NPT`, `EOS`, `Vib`, `GCMC`), the batch
  execution loop `Simulation.run`, `EOS.set_volumes`, `Vib.run` and the
  vibrational post-processing `Vib.process`.

Python strings are modelled as `List Char`, Python floats as `ℚ` (every IEEE
double is a rational and only comparisons, sign and exact arithmetic matter
here) or `ℝ` where genuine real arithmetic (cube roots, square roots, π) is
involved.  Python dicts are modelled as association lists in iteration order.
External collaborators (deepmd inference, LAMMPS, numpy eigendecomposition,
the random source) are passed in as explicit function arguments.
-/

namespace DPTools

/-! ## Type-map utilities (`dptools/utils.py`) -/

/-- `ase.data.chemical_symbols`: the list of legal chemical-element symbols
(index = atomic number, `"X"` is the dummy element 0) that
`check_type_map` tests dict keys against. -/
def chemical_symbols : List (List Char) :=
  ([ "X", "H", "He", "Li", "Be", "B", "C", "N", "O", "F", "Ne",
     "Na", "Mg", "Al", "Si", "P", "S", "Cl", "Ar", "K", "Ca",
     "Sc", "Ti", "V", "Cr", "Mn", "Fe", "Co", "Ni", "Cu", "Zn",
     "Ga", "Ge", "As", "Se", "Br", "Kr", "Rb", "Sr", "Y", "Zr",
     "Nb", "Mo", "Tc", "Ru", "Rh", "Pd", "Ag", "Cd", "In", "Sn",
     "Sb", "Te", "I", "Xe", "Cs", "Ba", "La", "Ce", "Pr", "Nd",
     "Pm", "Sm", "Eu", "Gd", "Tb", "Dy", "Ho", "Er", "Tm", "Yb",
     "Lu", "Hf", "Ta", "W", "Re", "Os", "Ir", "Pt", "Au", "Hg",
     "Tl", "Pb", "Bi", "Po", "At", "Rn", "Fr", "Ra", "Ac", "Th",
     "Pa", "U", "Np", "Pu", "Am", "Cm", "Bk", "Cf", "Es", "Fm",
     "Md", "No", "Lr", "Rf", "Db", "Sg", "Bh", "Hs", "Mt", "Ds",
     "Rg", "Cn", "Nh", "Fl", "Mc", "Lv", "Ts", "Og" ] : List String).map
    String.toList

/-- The 0-based → 1-based index shift applied to a type map before handing it
to LAMMPS, as in `utils.read_dump` (`if 0 in type_map.values(): type_map =
{k: v + 1 for k, v in type_map.items()}`) and identically in
`DeepMD.set_types` (`calculator.py`).  Keys are generic; indices are the
non-negative integers the repository always stores. -/
def toEngineLocal {α : Type} (m : List (α × ℕ)) : List (α × ℕ) :=
  if m.any (fun kv => kv.2 == 0) then m.map (fun kv => (kv.1, kv.2 + 1)) else m

end DPTools

namespace DPTools

/-! ### Serialization (`typemap2str` / `str2typemap`) -/

/-- Decimal rendering of a non-negative integer, as Python `f"{v}"` renders an
`int`: most-significant digit first, `"0"` for zero. -/
def natChars (n : ℕ) : List Char :=
  if n = 0 then ['0'] else (Nat.digits 10 n).reverse.map Nat.digitChar

/-- Python `int(...)` restricted to unsigned decimal digit strings, as applied
by `str2typemap` to the value field. -/
def parseNat (cs : List Char) : ℕ :=
  cs.foldl (fun acc c => 10 * acc + (c.toNat - 48)) 0

/-- `utils.check_type_map`: inspects only the first key (the Python loop
breaks after one iteration); if it is not a legal chemical symbol the dict is
inverted (the map was index-keyed), otherwise it is returned unchanged. -/
def check_type_map (m : List (List Char × ℕ)) :
    List (List Char × ℕ) ⊕ List (ℕ × List Char) :=
  match m with
  | [] => Sum.inl []
  | (k, _) :: _ =>
    if k ∈ chemical_symbols then Sum.inl m
    else Sum.inr (m.map (fun kv => (kv.2, kv.1)))

/-- `utils.typemap2str`: normalizes via `check_type_map`, then joins
`f"{k}:{v}"` entries with `","`. -/
def typemap2str (m : List (List Char × ℕ)) : List Char :=
  match check_type_map m with
  | Sum.inl tm => [','].intercalate (tm.map (fun kv => kv.1 ++ ':' :: natChars kv.2))
  | Sum.inr tm => [','].intercalate (tm.map (fun kv => natChars kv.1 ++ ':' :: kv.2))

/-- `utils.str2typemap`: splits on `","`, then maps each item `i` to
`(i.split(":")[0], int(i.split(":")[-1]))`. -/
def str2typemap (s : List Char) : List (List Char × ℕ) :=
  (s.splitOn ',').map (fun i => ((i.splitOn ':').headD [], parseNat ((i.splitOn ':').getLastD [])))

end DPTools

namespace SampleConfigs

/-! ## Ensemble sampler (`dptools/train/ensemble.py`, class `SampleConfigs`) -/

/-- `SampleConfigs.get_dev`.  `cache` models the `dev.npy` file in the working
directory (`none` = absent), `nframes` is `len(self.configs)`, and
`calc_model_devi` is the external `deepmd.infer.calc_model_devi` collaborator
applied to `self.graphs` (already restricted to the `[:, 4]` max-force-std
column).  Returns the deviation record together with the `dev.npy` contents
after the call (`np.save` overwrites on recomputation).  The source performs
no validation of the model count: any `graphs` list is passed through to the
collaborator. -/
def get_dev (cache : Option (List ℚ)) (nframes : ℕ) (graphs : List (List Char))
    (calc_model_devi : List (List Char) → List ℚ) : List ℚ × Option (List ℚ) :=
  match cache with
  | some old =>
    if old.length = nframes then (old, some old)
    else
      let dev := calc_model_devi graphs
      (dev, some dev)
  | none =>
    let dev := calc_model_devi graphs
    (dev, some dev)

/-- `np.where(np.logical_and(dev >= lo, dev <= hi))[0]`: the qualifying frame
indices, in ascending order. -/
def i_configs (dev : List ℚ) (lo hi : ℚ) : List ℕ :=
  (List.range dev.length).filter (fun i => lo ≤ dev.getD i 0 ∧ dev.getD i 0 ≤ hi)

/-- `n_sample = n if n < len(i_configs) else len(i_configs)`. -/
def n_sample (dev : List ℚ) (lo hi : ℚ) (n : ℕ) : ℕ :=
  if n < (i_configs dev lo hi).length then n else (i_configs dev lo hi).length

/-- The index selection performed by `SampleConfigs.sample`:
`sorted(random.sample(list(i_configs), n_sample))`.  `draw` models the
standard-library `random.sample` collaborator (population list, draw count);
the configurations returned by `sample` are exactly `self.configs` read at
these indices, in this order. -/
def sample (draw : List ℕ → ℕ → List ℕ) (dev : List ℚ) (lo hi : ℚ) (n : ℕ) :
    List ℕ :=
  (draw (i_configs dev lo hi) (n_sample dev lo hi n)).mergeSort

/-- A faithful stand-in for `random.sample`, used to instantiate witnesses:
take the first `k` elements of the population. -/
def takeDraw (l : List ℕ) (k : ℕ) : List ℕ := l.take k

end SampleConfigs

namespace Simulation

/-! ## Simulation runner (`dptools/simulate/simulations.py`) -/

/-- The structure loop of `Simulation.run`:
`for atoms in self.atoms: ...; atoms.get_potential_energy()`.
`execOne` models binding the `DeepMD` calculator and evaluating one
structure; a raised exception is an `Except.error`.  Returns the list of
structures on which execution was attempted, together with the first
uncaught exception (Python propagates it out of the loop, so no later
structure is attempted). -/
def run_atoms {α ε : Type} (execOne : α → Except ε Unit) :
    List α → List α × Option ε
  | [] => ([], none)
  | a :: rest =>
    match execOne a with
    | Except.error e => ([a], some e)
    | Except.ok _ =>
      let r := run_atoms execOne rest
      (a :: r.1, r.2)

end Simulation

namespace EOS

/-! ## Equation of state (`class EOS`) -/

/-- `np.linspace(lo, hi, N)`: `N` evenly spaced reals from `lo` to `hi`,
endpoints included.  (For `N = 1` the junk value `0/0 = 0` makes the formula
yield `[lo]`, exactly numpy's single-sample behavior.) -/
noncomputable def linspace (lo hi : ℝ) (N : ℕ) : List ℝ :=
  (List.range N).map (fun i : ℕ => lo + (hi - lo) * (i : ℝ) / ((N : ℝ) - 1))

/-- `EOS.set_volumes`.  A structure is modelled by its 3×3 cell matrix (atom
positions are scaled along with the cell and are irrelevant to volumes).
`atoms, = self.atoms.copy()` is Python single-element unpacking: it raises
`ValueError` (here: `none`) unless the structure list has exactly one
element.  Each volume fraction `v` scales the cell by `v ** (1 / 3)`. -/
noncomputable def set_volumes (atoms : List (Matrix (Fin 3) (Fin 3) ℝ))
    (lo hi : ℝ) (N : ℕ) : Option (List (Matrix (Fin 3) (Fin 3) ℝ)) :=
  match atoms with
  | [a] => some ((linspace lo hi N).map (fun v => v ^ ((1 : ℝ) / 3) • a))
  | _ => none

/-- Cell volume: the absolute determinant of the 3×3 cell matrix
(`ase.Atoms.get_volume`). -/
noncomputable def volume (cell : Matrix (Fin 3) (Fin 3) ℝ) : ℝ := |cell.det|

end EOS

namespace Vib

/-! ## Vibrational analysis (`class Vib`) -/

/-- `Vib.run`: `atoms, = self.atoms` (single-element unpacking, `ValueError`
unless exactly one structure), then the calculator executes on that
structure and `process` runs.  `execute` models the whole
calculate-and-process step. -/
def run {α β : Type} (atoms : List α) (execute : α → β) : Option β :=
  match atoms with
  | [a] => some (execute a)
  | _ => none

/-- `np.flip(np.sort(eig_vals))`: eigenvalues in descending order. -/
def sortDescend (l : List ℚ) : List ℚ := l.mergeSort.reverse

/-- Speed of light in m/s, the literal `c = 299792458.0` in `Vib.process`. -/
noncomputable def c_light : ℝ := 299792458

/-- `conversion = 1e12 / (c * 100)` (Hz → cm⁻¹). -/
noncomputable def conversion : ℝ := 1e12 / (c_light * 100)

/-- The eigenvalue → frequency post-processing of `Vib.process`: sort the
eigenvalues descending, convert each to
`sqrt(|e|) / (2 π) * conversion`, and negate it when the eigenvalue is
negative (`imag_filt`).  Eigenvalues (floats from `np.linalg.eig`) are
modelled as rationals; frequencies live in `ℝ`. -/
noncomputable def frequencies (eig_vals : List ℚ) : List ℝ :=
  (sortDescend eig_vals).map (fun e : ℚ =>
    (if e < 0 then (-1 : ℝ) else 1) * (Real.sqrt |((e : ℚ) : ℝ)| / (2 * Real.pi) * conversion))

end Vib

/-! ## Command builders (`get_commands` of each simulation type)

Numeric parameters keep their source types (`int` → `ℕ`, `float` → `ℚ`);
`fmt` models Python's float `f"{...}"` rendering, `seed` the value returned
by the process-wide random source `utils.get_seed`, and each builder receives
`self.calc_type` explicitly because `EOS.get_commands` borrows
`Opt.get_commands` with its own `self`.  A builder returns
`(warnings printed, commands)`. -/

/-- `Simulation._warn_unused`: one warning line per leftover `**kwargs`
entry, naming the key, its value and `self.calc_type`. -/
def warn_unused (ct : String) (kwargs : List (String × String)) : List String :=
  kwargs.map (fun kv => "WARNING: " ++ kv.1 ++ "=" ++ kv.2 ++ " unused for calculation type " ++ ct)

namespace SPE

/-- `SPE.get_commands`. -/
def get_commands (ct : String) (kwargs : List (String × String)) :
    List String × List String :=
  (warn_unused ct kwargs, ["run 0"])

end SPE

namespace Opt

/-- `Opt.get_commands`. -/
def get_commands (ct : String) (fmt : ℚ → String) (nsw : ℕ) (ftol etol : ℚ)
    (disp_freq : ℕ) (kwargs : List (String × String)) :
    List String × List String :=
  (warn_unused ct kwargs,
   [ "thermo " ++ toString disp_freq,
     "min_modify norm max",
     "minimize " ++ fmt etol ++ " " ++ fmt ftol ++ " " ++ toString nsw ++ " "
       ++ toString (nsw * 10) ])

end Opt

namespace CellOpt

/-- `CellOpt.get_commands`. -/
def get_commands (ct : String) (fmt : ℚ → String) (nsw : ℕ) (ftol etol : ℚ)
    (opt_type : String) (Ptarget : ℚ) (disp_freq : ℕ)
    (kwargs : List (String × String)) : List String × List String :=
  (warn_unused ct kwargs,
   [ "thermo " ++ toString disp_freq,
     "min_modify norm max",
     "fix cellopt all box/relax " ++ opt_type ++ " " ++ fmt Ptarget,
     "minimize " ++ fmt etol ++ " " ++ fmt ftol ++ " " ++ toString nsw ++ " "
       ++ toString (nsw * 10),
     "unfix cellopt" ])

end CellOpt

namespace NVT

/-- `NVT.get_commands` (the `timestep` argument is converted to ps but never
used: the generated script hard-codes `dt = 0.5e-3`). -/
def get_commands (ct : String) (fmt : ℚ → String) (seed : ℕ) (steps : ℕ)
    (timestep : ℚ) (Ti Tf : ℚ) (equil_steps write_freq disp_freq : ℕ)
    (kwargs : List (String × String)) : List String × List String :=
  (warn_unused ct kwargs,
   [ "thermo " ++ toString disp_freq,
     "variable\tdt\tequal\t0.5e-3",
     "variable\ttdamp\tequal 100*$\x7bdt\x7d",
     "run_style verlet",
     "timestep $\x7bdt\x7d",
     "velocity all create " ++ fmt Ti ++ " " ++ toString seed
       ++ " rot yes mom yes dist gaussian",
     "fix equil all nvt temp " ++ fmt Ti ++ " " ++ fmt Ti ++ " $\x7btdamp\x7d",
     "run " ++ toString equil_steps,
     "unfix equil",
     "fix nvt_prod all nvt temp " ++ fmt Ti ++ " " ++ fmt Tf ++ " $\x7btdamp\x7d",
     "dump 1 all custom " ++ toString write_freq ++ " nvt.dump id type x y z",
     "run " ++ toString steps ])

end NVT

namespace NPT

/-- `NPT.get_commands`. -/
def get_commands (ct : String) (fmt : ℚ → String) (seed : ℕ) (steps : ℕ)
    (timestep : ℚ) (Pi Pf Ti Tf : ℚ) (equil_steps write_freq disp_freq : ℕ)
    (kwargs : List (String × String)) : List String × List String :=
  (warn_unused ct kwargs,
   [ "thermo " ++ toString disp_freq,
     "variable\tdt\tequal\t0.5e-3",
     "variable\tpdamp\tequal 1000*$\x7bdt\x7d",
     "variable\ttdamp\tequal 100*$\x7bdt\x7d",
     "run_style verlet",
     "timestep $\x7bdt\x7d",
     "velocity all create " ++ fmt Ti ++ " " ++ toString seed
       ++ " rot yes mom yes dist gaussian",
     "fix equil all npt temp " ++ fmt Ti ++ " " ++ fmt Ti ++ " $\x7btdamp\x7d tri "
       ++ fmt Pi ++ " " ++ fmt Pi ++ " $\x7bpdamp\x7d",
     "run " ++ toString equil_steps,
     "unfix equil",
     "fix npt_prod all npt temp " ++ fmt Ti ++ " " ++ fmt Tf ++ " $\x7btdamp\x7d tri "
       ++ fmt Pi ++ " " ++ fmt Pf ++ " $\x7bpdamp\x7d",
     "dump 1 all custom " ++ toString write_freq ++ " npt.dump id type x y z",
     "run " ++ toString steps ])

end NPT

namespace EOS

/-- `EOS.get_commands`: warns about its own leftover kwargs, then delegates to
`Opt.get_commands(self, nsw=nsw, ftol=ftol, etol=etol, disp_freq=disp_freq)`
(borrowing `self`, hence `self.calc_type`, with no leftover kwargs). -/
def get_commands (ct : String) (fmt : ℚ → String) (nsw : ℕ) (ftol etol : ℚ)
    (disp_freq : ℕ) (kwargs : List (String × String)) :
    List String × List String :=
  let inner := Opt.get_commands ct fmt nsw ftol etol disp_freq []
  (warn_unused ct kwargs ++ inner.1, inner.2)

end EOS

namespace Vib

/-- `Vib.get_commands`. -/
def get_commands (ct : String) (fmt : ℚ → String) (delta : ℚ)
    (kwargs : List (String × String)) : List String × List String :=
  (warn_unused ct kwargs,
   ["dynamical_matrix all eskm " ++ fmt delta ++ " file dynmat.dat"])

end Vib

namespace GCMC

/-- `GCMC.get_commands` (`mol` is `self._mol`, the lower-cased chemical
formula computed in `setup`). -/
def get_commands (ct : String) (fmt : ℚ → String) (seed : ℕ) (mol : String)
    (steps n_ex n_mc : ℕ) (T P dmax : ℚ)
    (equil_steps write_freq disp_freq : ℕ)
    (kwargs : List (String × String)) : List String × List String :=
  (warn_unused ct kwargs,
   [ "compute_modify  thermo_temp dynamic/dof yes",
     "molecule mol mol." ++ mol,
     "group " ++ mol ++ " molecule 0",
     "fix dpgcmc " ++ mol ++ " gcmc 1 " ++ toString n_ex ++ " " ++ toString n_mc
       ++ " 0 " ++ toString seed ++ " " ++ fmt T ++ " 0.0 " ++ fmt dmax
       ++ " mol mol pressure " ++ fmt P ++ " full_energy",
     "thermo " ++ toString disp_freq,
     "run " ++ toString equil_steps,
     "dump 1 all custom " ++ toString write_freq ++ " gcmc.dump id type x y z",
     "run " ++ toString steps ])

end GCMC

/-! ## Concrete collaborators used to instantiate theorems on closed inputs -/

/-- An MD-engine adapter that raises on the structure labelled `0` and
succeeds on every other structure. -/
def execFailsFirst : ℕ → Except String Unit :=
  fun a => if a = 0 then Except.error "SimulationExecutionError" else Except.ok ()

/-- An MD-engine adapter that raises on the structure labelled `1` and
succeeds on every other structure. -/
def execFailsSecond : ℕ → Except String Unit :=
  fun a => if a = 1 then Except.error "SimulationExecutionError" else Except.ok ()

/-- A concrete stand-in for the `deepmd.infer.calc_model_devi` collaborator:
a fixed two-frame deviation record. -/
def deviStub : List (List Char) → List ℚ := fun _ => [0, 0]

/-! # Theorems -/

/-- C7: converting a type map to the engine-local (1-based) convention shifts
every index by +1 if and only if the map currently contains index 0, leaves a
map with no 0 index unchanged, and applying the conversion twice yields the
same result as applying it once (idempotence, indices being the non-negative
integers the repository stores). -/
theorem toEngineLocal_spec {α : Type} (m : List (α × ℕ)) :
    (m.any (fun kv => kv.2 == 0) = true →
      DPTools.toEngineLocal m = m.map (fun kv => (kv.1, kv.2 + 1))) ∧
    (m.any (fun kv => kv.2 == 0) = false → DPTools.toEngineLocal m = m) ∧
    DPTools.toEngineLocal (DPTools.toEngineLocal m) = DPTools.toEngineLocal m := by
  refine ⟨fun h => by simp [DPTools.toEngineLocal, h], fun h => by simp [DPTools.toEngineLocal, h], ?_⟩
  by_cases h : m.any (fun kv => kv.2 == 0) = true
  · have h1 : DPTools.toEngineLocal m = m.map (fun kv => (kv.1, kv.2 + 1)) := by
      simp [DPTools.toEngineLocal, h]
    rw [h1]
    simp [DPTools.toEngineLocal, List.any_map, Function.comp]
  · have h1 : DPTools.toEngineLocal m = m := by
      simp [DPTools.toEngineLocal, h]
    rw [h1]
    exact h1

/-- Witness for C7: a 0-based two-entry map is shifted to 1-based, and an
already 1-based map is left unchanged. -/
theorem toEngineLocal_spec_witness :
    DPTools.toEngineLocal [((0 : ℕ), (0 : ℕ)), (1, 1)] = [(0, 1), (1, 2)] ∧
    DPTools.toEngineLocal [((0 : ℕ), (1 : ℕ)), (1, 2)] = [(0, 1), (1, 2)] := by
  constructor
  · have h := (toEngineLocal_spec [((0 : ℕ), (0 : ℕ)), (1, 1)]).1 (by decide)
    simpa using h
  · exact (toEngineLocal_spec [((0 : ℕ), (1 : ℕ)), (1, 2)]).2.1 (by decide)

/-- Counterexample to C3: when the adapter raises on the first structure of a
two-structure batch, `Simulation.run` propagates the exception and never
attempts the second structure, instead of continuing to it. -/
theorem run_atoms_counterexample :
    Simulation.run_atoms execFailsFirst [0, 1]
      = ([0], some "SimulationExecutionError") ∧
    1 ∉ (Simulation.run_atoms execFailsFirst [0, 1]).1 := by
  constructor
  · rfl
  · decide

/-- C3 (amended): when the MD-engine adapter raises during execution of one
structure of a multi-structure batch, the exception propagates out of the
structure loop: every structure before the first failing one is executed, the
failing one is attempted, and the remaining structures are never attempted
(the batch aborts; there is no logging or per-structure recovery). -/
theorem run_atoms_stops_at_first_failure {α ε : Type}
    (execOne : α → Except ε Unit) (l1 l2 : List α) (a : α) (e : ε)
    (hok : ∀ x ∈ l1, execOne x = Except.ok ())
    (ha : execOne a = Except.error e) :
    Simulation.run_atoms execOne (l1 ++ a :: l2) = (l1 ++ [a], some e) := by
  induction l1 with
  | nil => simp [Simulation.run_atoms, ha]
  | cons x xs ih =>
    have hx : execOne x = Except.ok () := hok x (by simp)
    have hxs := ih (fun y hy => hok y (by simp [hy]))
    simp [Simulation.run_atoms, hx, hxs]

/-- Witness for C3 (amended): in the batch `[0, 1, 2]` where execution fails
on structure `1`, only `[0, 1]` are attempted and the error propagates. -/
theorem run_atoms_stops_at_first_failure_witness :
    Simulation.run_atoms execFailsSecond [0, 1, 2]
      = ([0, 1], some "SimulationExecutionError") := by
  have h := run_atoms_stops_at_first_failure execFailsSecond [0] [2] 1
    "SimulationExecutionError" (fun x hx => by simp at hx; subst hx; rfl) rfl
  simpa using h

/-- C10: `EOS.set_volumes` (hence `EOS.setup`) and `Vib.run` have the
unstated precondition that the structure set contains exactly one structure:
with zero or more than one element the single-element unpacking
`atoms, = self.atoms` raises (`none`) instead of expanding or executing,
and with exactly one element both succeed. -/
theorem single_structure_precondition (lo hi : ℝ) (N : ℕ)
    (atoms : List (Matrix (Fin 3) (Fin 3) ℝ)) {β : Type}
    (execute : Matrix (Fin 3) (Fin 3) ℝ → β) :
    (atoms.length ≠ 1 →
      EOS.set_volumes atoms lo hi N = none ∧ Vib.run atoms execute = none) ∧
    (atoms.length = 1 →
      (EOS.set_volumes atoms lo hi N).isSome ∧ (Vib.run atoms execute).isSome) := by
  match atoms with
  | [] => exact ⟨fun _ => ⟨rfl, rfl⟩, fun h => by simp at h⟩
  | [a] => exact ⟨fun h => by simp at h, fun _ => ⟨rfl, rfl⟩⟩
  | a :: b :: rest => exact ⟨fun _ => ⟨rfl, rfl⟩, fun h => by simp at h⟩

/-- Witness for C10: the empty set and a two-element set are rejected by both
operations, a singleton is accepted by both. -/
theorem single_structure_precondition_witness :
    (EOS.set_volumes [] 0.96 1.04 5 = none ∧
      Vib.run ([] : List (Matrix (Fin 3) (Fin 3) ℝ)) id = none) ∧
    (EOS.set_volumes [(1 : Matrix (Fin 3) (Fin 3) ℝ), 1] 0.96 1.04 5 = none ∧
      Vib.run [(1 : Matrix (Fin 3) (Fin 3) ℝ), 1] id = none) ∧
    ((EOS.set_volumes [(1 : Matrix (Fin 3) (Fin 3) ℝ)] 0.96 1.04 5).isSome ∧
      (Vib.run [(1 : Matrix (Fin 3) (Fin 3) ℝ)] id).isSome) :=
  ⟨(single_structure_precondition 0.96 1.04 5 [] id).1 (by simp),
   (single_structure_precondition 0.96 1.04 5 [1, 1] id).1 (by simp),
   (single_structure_precondition 0.96 1.04 5 [1] id).2 (by simp)⟩

/-- C5: `get_dev` reuses the on-disk `dev.npy` cache if and only if it exists
and its length equals the current trajectory's frame count; on any mismatch
(or missing cache) it recomputes the full deviation record from the ensemble
and overwrites the cache, never returning the stale cached values. -/
theorem get_dev_cache_spec (cache : Option (List ℚ)) (nframes : ℕ)
    (graphs : List (List Char)) (calc_model_devi : List (List Char) → List ℚ) :
    (∀ old, cache = some old → old.length = nframes →
      SampleConfigs.get_dev cache nframes graphs calc_model_devi = (old, some old)) ∧
    (∀ old, cache = some old → old.length ≠ nframes →
      SampleConfigs.get_dev cache nframes graphs calc_model_devi
        = (calc_model_devi graphs, some (calc_model_devi graphs))) ∧
    (cache = none →
      SampleConfigs.get_dev cache nframes graphs calc_model_devi
        = (calc_model_devi graphs, some (calc_model_devi graphs))) := by
  refine ⟨fun old ho hl => ?_, fun old ho hl => ?_, fun ho => ?_⟩
  · subst ho; simp [SampleConfigs.get_dev, hl]
  · subst ho; simp [SampleConfigs.get_dev, hl]
  · subst ho; simp [SampleConfigs.get_dev]

/-- Witness for C5: a two-frame cache is reused for a two-frame trajectory,
recomputed and overwritten for a three-frame trajectory, and computed from
scratch when absent. -/
theorem get_dev_cache_spec_witness :
    SampleConfigs.get_dev (some [1, 2]) 2 [['m']] deviStub = ([1, 2], some [1, 2]) ∧
    SampleConfigs.get_dev (some [1, 2]) 3 [['m']] deviStub = ([0, 0], some [0, 0]) ∧
    SampleConfigs.get_dev none 3 [['m']] deviStub = ([0, 0], some [0, 0]) :=
  ⟨(get_dev_cache_spec (some [1, 2]) 2 [['m']] deviStub).1 [1, 2] rfl rfl,
   (get_dev_cache_spec (some [1, 2]) 3 [['m']] deviStub).2.1 [1, 2] rfl (by decide),
   (get_dev_cache_spec none 3 [['m']] deviStub).2.2 rfl⟩

/-- Counterexample to C2: with a single-model "ensemble" (fewer than 2
models) and no valid cache, `get_dev` does not fail: it proceeds to invoke
the deviation computation on the one model and returns (and caches) the
resulting record.  No `InsufficientEnsembleError` (or any ensemble-size
check) exists in the code. -/
theorem get_dev_single_model_counterexample :
    ([['m']] : List (List Char)).length < 2 ∧
    SampleConfigs.get_dev none 2 [['m']] deviStub = ([0, 0], some [0, 0]) :=
  ⟨by decide, rfl⟩

/-- C2 (amended): the ensemble deviation computation performs no check of the
ensemble size: for every model list with fewer than 2 models (and no usable
cache) it proceeds to compute the disagreement record through the
ensemble-inference collaborator — degenerate for a single model — rather
than failing. -/
theorem get_dev_no_size_check (nframes : ℕ) (graphs : List (List Char))
    (calc_model_devi : List (List Char) → List ℚ)
    (hsize : graphs.length < 2) :
    SampleConfigs.get_dev none nframes graphs calc_model_devi
      = (calc_model_devi graphs, some (calc_model_devi graphs)) := rfl

/-- Witness for C2 (amended): a one-model ensemble is accepted and its
deviation record computed. -/
theorem get_dev_no_size_check_witness :
    SampleConfigs.get_dev none 2 [['m']] deviStub = ([0, 0], some [0, 0]) :=
  get_dev_no_size_check 2 [['m']] deviStub (by decide)

/-- C1: for every deviation record, bounds `lo ≤ hi` and cap `n`
(`max_count`), and every draw function behaving as `random.sample`
(a duplicate-free selection of the requested size from the population),
`sample` selects exactly `min(n, |{i : lo ≤ dev[i] ≤ hi}|)` distinct indices,
each qualifying (closed interval, both endpoints included), returned in
ascending order; when the qualifying set is empty the selection is empty and
no error is raised. -/
theorem sample_spec (draw : List ℕ → ℕ → List ℕ)
    (hdraw : ∀ l k, l.Nodup → k ≤ l.length →
      (draw l k).length = k ∧ (draw l k).Nodup ∧ draw l k ⊆ l)
    (dev : List ℚ) (lo hi : ℚ) (n : ℕ) :
    (SampleConfigs.sample draw dev lo hi n).length
        = min n (SampleConfigs.i_configs dev lo hi).length ∧
    (SampleConfigs.sample draw dev lo hi n).Nodup ∧
    SampleConfigs.sample draw dev lo hi n ⊆ SampleConfigs.i_configs dev lo hi ∧
    (∀ i ∈ SampleConfigs.sample draw dev lo hi n,
        i < dev.length ∧ lo ≤ dev.getD i 0 ∧ dev.getD i 0 ≤ hi) ∧
    (SampleConfigs.sample draw dev lo hi n).Sorted (· ≤ ·) ∧
    (SampleConfigs.i_configs dev lo hi = [] →
      SampleConfigs.sample draw dev lo hi n = []) := by
  set q := SampleConfigs.i_configs dev lo hi with hq
  have hqnd : q.Nodup := (List.nodup_range _).filter _
  have hns : SampleConfigs.n_sample dev lo hi n = min n q.length := by
    rw [hq]
    unfold SampleConfigs.n_sample
    split <;> omega
  have hle : SampleConfigs.n_sample dev lo hi n ≤ q.length := by
    rw [hns]; exact Nat.min_le_right _ _
  obtain ⟨hlen, hnd, hsub⟩ :=
    hdraw q (SampleConfigs.n_sample dev lo hi n) hqnd hle
  have hsample : SampleConfigs.sample draw dev lo hi n
      = (draw q (SampleConfigs.n_sample dev lo hi n)).mergeSort := rfl
  have hsubset : SampleConfigs.sample draw dev lo hi n ⊆ q := by
    intro x hx
    rw [hsample] at hx
    exact hsub (List.mem_mergeSort.mp hx)
  refine ⟨?_, ?_, hsubset, ?_, ?_, ?_⟩
  · rw [hsample, List.length_mergeSort, hlen, hns]
  · rw [hsample]
    exact ((List.mergeSort_perm _ _).nodup_iff).mpr hnd
  · intro i hi_mem
    have hmem : i ∈ q := hsubset hi_mem
    rw [hq] at hmem
    simp only [SampleConfigs.i_configs, List.mem_filter, List.mem_range,
      decide_eq_true_eq] at hmem
    exact ⟨hmem.1, hmem.2⟩
  · rw [hsample]
    exact List.sorted_mergeSort' _
  · intro hempty
    have hdr : draw q (SampleConfigs.n_sample dev lo hi n) = [] := by
      apply List.length_eq_zero.mp
      rw [hlen, hns, hempty]
      simp
    rw [hsample, hdr, List.mergeSort_nil]

/-- Witness for C1: the spec's concrete example scaled to hundredths —
`dev = [1, 10, 20, 40, 50]`, band `[5, 35]`, cap 10 — selects exactly the
qualifying indices `[1, 2]` in ascending order, with the first-k draw
standing in for `random.sample`. -/
theorem sample_spec_witness :
    SampleConfigs.sample SampleConfigs.takeDraw [1, 10, 20, 40, 50] 5 35 10
      = [1, 2] ∧
    (SampleConfigs.sample SampleConfigs.takeDraw [1, 10, 20, 40, 50] 5 35 10).length
      = min 10 (SampleConfigs.i_configs [1, 10, 20, 40, 50] 5 35).length := by
  have hq2 : SampleConfigs.i_configs [1, 10, 20, 40, 50] 5 35 = [1, 2] := by decide
  have hns2 : SampleConfigs.n_sample [1, 10, 20, 40, 50] 5 35 10 = 2 := by
    unfold SampleConfigs.n_sample
    rw [hq2]
    decide
  constructor
  · unfold SampleConfigs.sample
    rw [hq2, hns2]
    exact List.mergeSort_eq_self (by decide)
  · exact (sample_spec SampleConfigs.takeDraw
      (fun l k hnd hk =>
        ⟨by simp [SampleConfigs.takeDraw, List.length_take, Nat.min_eq_left hk],
         hnd.sublist (List.take_sublist _ _),
         List.take_subset _ _⟩)
      [1, 10, 20, 40, 50] 5 35 10).1

/-- C9: every command-builder variant (SPE, Opt, CellOpt, NVT, NPT, EOS, Vib,
GCMC) accepts a parameter set containing keys it does not consume without
raising, emits one warning naming each unrecognized key and its value, and
produces exactly the command sequence it would produce without those keys. -/
theorem get_commands_unused_kwargs_spec
    (ct : String) (fmt : ℚ → String) (seed : ℕ) (mol opt_type : String)
    (nsw steps equil_steps write_freq disp_freq n_ex n_mc : ℕ)
    (ftol etol Ptarget timestep Ti Tf Pi Pf T P dmax delta : ℚ)
    (kwargs : List (String × String)) :
    ((SPE.get_commands ct kwargs).2 = (SPE.get_commands ct []).2 ∧
      (SPE.get_commands ct kwargs).1 = warn_unused ct kwargs) ∧
    ((Opt.get_commands ct fmt nsw ftol etol disp_freq kwargs).2
        = (Opt.get_commands ct fmt nsw ftol etol disp_freq []).2 ∧
      (Opt.get_commands ct fmt nsw ftol etol disp_freq kwargs).1
        = warn_unused ct kwargs) ∧
    ((CellOpt.get_commands ct fmt nsw ftol etol opt_type Ptarget disp_freq kwargs).2
        = (CellOpt.get_commands ct fmt nsw ftol etol opt_type Ptarget disp_freq []).2 ∧
      (CellOpt.get_commands ct fmt nsw ftol etol opt_type Ptarget disp_freq kwargs).1
        = warn_unused ct kwargs) ∧
    ((NVT.get_commands ct fmt seed steps timestep Ti Tf equil_steps write_freq disp_freq kwargs).2
        = (NVT.get_commands ct fmt seed steps timestep Ti Tf equil_steps write_freq disp_freq []).2 ∧
      (NVT.get_commands ct fmt seed steps timestep Ti Tf equil_steps write_freq disp_freq kwargs).1
        = warn_unused ct kwargs) ∧
    ((NPT.get_commands ct fmt seed steps timestep Pi Pf Ti Tf equil_steps write_freq disp_freq kwargs).2
        = (NPT.get_commands ct fmt seed steps timestep Pi Pf Ti Tf equil_steps write_freq disp_freq []).2 ∧
      (NPT.get_commands ct fmt seed steps timestep Pi Pf Ti Tf equil_steps write_freq disp_freq kwargs).1
        = warn_unused ct kwargs) ∧
    ((EOS.get_commands ct fmt nsw ftol etol disp_freq kwargs).2
        = (EOS.get_commands ct fmt nsw ftol etol disp_freq []).2 ∧
      (EOS.get_commands ct fmt nsw ftol etol disp_freq kwargs).1
        = warn_unused ct kwargs) ∧
    ((Vib.get_commands ct fmt delta kwargs).2 = (Vib.get_commands ct fmt delta []).2 ∧
      (Vib.get_commands ct fmt delta kwargs).1 = warn_unused ct kwargs) ∧
    ((GCMC.get_commands ct fmt seed mol steps n_ex n_mc T P dmax equil_steps write_freq disp_freq kwargs).2
        = (GCMC.get_commands ct fmt seed mol steps n_ex n_mc T P dmax equil_steps write_freq disp_freq []).2 ∧
      (GCMC.get_commands ct fmt seed mol steps n_ex n_mc T P dmax equil_steps write_freq disp_freq kwargs).1
        = warn_unused ct kwargs) ∧
    (warn_unused ct kwargs).length = kwargs.length ∧
    (∀ kv ∈ kwargs,
      ("WARNING: " ++ kv.1 ++ "=" ++ kv.2 ++ " unused for calculation type " ++ ct)
        ∈ warn_unused ct kwargs) := by
  refine ⟨⟨rfl, rfl⟩, ⟨rfl, rfl⟩, ⟨rfl, rfl⟩, ⟨rfl, rfl⟩, ⟨rfl, rfl⟩,
    ⟨rfl, ?_⟩, ⟨rfl, rfl⟩, ⟨rfl, rfl⟩, ?_, ?_⟩
  · simp [EOS.get_commands, Opt.get_commands, warn_unused]
  · simp [warn_unused]
  · intro kv hkv
    exact List.mem_map_of_mem _ hkv

/-- Witness for C9: the `Opt` builder with an unconsumed `fake_param` key
warns about it (naming key and value) and emits exactly the commands of the
kwarg-free call. -/
theorem get_commands_unused_kwargs_spec_witness :
    (Opt.get_commands "opt" toString 1000 (1/100) 0 10 [("fake_param", "1")]).2
      = (Opt.get_commands "opt" toString 1000 (1/100) 0 10 []).2 ∧
    ("WARNING: " ++ "fake_param" ++ "=" ++ "1" ++ " unused for calculation type " ++ "opt")
      ∈ (Opt.get_commands "opt" toString 1000 (1/100) 0 10 [("fake_param", "1")]).1 := by
  have h := get_commands_unused_kwargs_spec "opt" toString 12345 "h2o" "aniso"
    1000 0 0 0 10 0 0 (1/100) 0 0 0 0 0 0 0 0 0 0 0 [("fake_param", "1")]
  refine ⟨h.2.1.1, ?_⟩
  rw [h.2.1.2]
  exact h.2.2.2.2.2.2.2.2.2 ("fake_param", "1") (by simp)

/-- `getD` through `map`, for an in-range index. -/
theorem getD_map_of_lt {α β : Type} (f : α → β) (l : List α) (i : ℕ) (da : α)
    (db : β) (h : i < l.length) : (l.map f).getD i db = f (l.getD i da) := by
  simp [List.getD_eq_getElem?_getD, List.getElem?_map, List.getElem?_eq_getElem h]

/-- The `i`-th linspace sample, in closed form. -/
theorem linspace_getD (lo hi : ℝ) (N i : ℕ) (h : i < N) :
    (EOS.linspace lo hi N).getD i 0 = lo + (hi - lo) * i / ((N : ℝ) - 1) := by
  unfold EOS.linspace
  rw [getD_map_of_lt _ _ _ 0 _ (by simpa using h)]
  rw [List.getD_eq_getElem?_getD, List.getElem?_range h]
  simp

/-- Linspace samples of a non-negative range are non-negative. -/
theorem linspace_sample_nonneg (lo hi : ℝ) (N i : ℕ) (hlo : 0 ≤ lo)
    (hhi : 0 ≤ hi) (h : i < N) :
    0 ≤ lo + (hi - lo) * i / ((N : ℝ) - 1) := by
  match N with
  | 0 => omega
  | 1 =>
    have hi0 : i = 0 := by omega
    subst hi0
    simp [hlo]
  | (M + 2) =>
    have hd : (0 : ℝ) < ((M + 2 : ℕ) : ℝ) - 1 := by
      push_cast
      linarith
    set t : ℝ := (i : ℝ) / (((M + 2 : ℕ) : ℝ) - 1) with ht
    have ht0 : 0 ≤ t := div_nonneg (Nat.cast_nonneg i) (le_of_lt hd)
    have ht1 : t ≤ 1 := by
      rw [ht, div_le_one hd]
      have : (i : ℝ) + 1 ≤ ((M + 2 : ℕ) : ℝ) := by exact_mod_cast h
      linarith
    have hrw : lo + (hi - lo) * i / (((M + 2 : ℕ) : ℝ) - 1) = lo + (hi - lo) * t := by
      rw [ht]
      ring
    rw [hrw]
    nlinarith [mul_nonneg hlo (by linarith : (0:ℝ) ≤ 1 - t), mul_nonneg hhi ht0]

/-- Scaling a cell by `v ** (1/3)` scales its volume by `v` (`v ≥ 0`). -/
theorem volume_smul_cbrt (M : Matrix (Fin 3) (Fin 3) ℝ) (v : ℝ) (hv : 0 ≤ v) :
    EOS.volume (v ^ ((1 : ℝ) / 3) • M) = v * EOS.volume M := by
  unfold EOS.volume
  rw [Matrix.det_smul, Fintype.card_fin, abs_mul]
  have hc3 : (v ^ ((1 : ℝ) / 3)) ^ (3 : ℕ) = v := by
    rw [← Real.rpow_natCast (v ^ ((1 : ℝ) / 3)) 3, ← Real.rpow_mul hv]
    norm_num
  rw [hc3, abs_of_nonneg hv]

/-- C4: on a single input structure of volume `V0`, `set_volumes(lo, hi, N)`
(non-negative volume-fraction bounds) produces exactly `N` structures whose
volumes are `V0 * v` for `v` taken in order from the `N` linearly spaced
values between `lo` and `hi`, endpoints included (for `N ≥ 2` the first
sample is `lo` and the last is `hi`). -/
theorem set_volumes_spec (cell : Matrix (Fin 3) (Fin 3) ℝ) (lo hi : ℝ) (N : ℕ)
    (hlo : 0 ≤ lo) (hhi : 0 ≤ hi) :
    ∃ out, EOS.set_volumes [cell] lo hi N = some out ∧
      out.length = N ∧
      (∀ i < N, EOS.volume (out.getD i 0)
        = (lo + (hi - lo) * i / ((N : ℝ) - 1)) * EOS.volume cell) ∧
      (∀ i < N, (EOS.linspace lo hi N).getD i 0
        = lo + (hi - lo) * i / ((N : ℝ) - 1)) ∧
      (2 ≤ N → (EOS.linspace lo hi N).getD 0 0 = lo ∧
        (EOS.linspace lo hi N).getD (N - 1) 0 = hi) := by
  refine ⟨(EOS.linspace lo hi N).map (fun v => v ^ ((1 : ℝ) / 3) • cell),
    rfl, by simp [EOS.linspace], ?_, fun i h => linspace_getD lo hi N i h, ?_⟩
  · intro i h
    have hlt : i < (EOS.linspace lo hi N).length := by simp [EOS.linspace, h]
    rw [getD_map_of_lt _ _ _ 0 _ hlt, linspace_getD lo hi N i h]
    exact volume_smul_cbrt cell _ (linspace_sample_nonneg lo hi N i hlo hhi h)
  · intro hN
    constructor
    · rw [linspace_getD lo hi N 0 (by omega)]
      simp
    · rw [linspace_getD lo hi N (N - 1) (by omega)]
      have hne : ((N : ℝ) - 1) ≠ 0 := by
        have : (2 : ℝ) ≤ (N : ℝ) := by exact_mod_cast hN
        intro hc
        nlinarith
      have hcast : (((N - 1 : ℕ)) : ℝ) = (N : ℝ) - 1 := by
        have : 1 ≤ N := by omega
        push_cast [this]
        ring
      rw [hcast]
      field_simp

/-- Witness for C4: the spec's example `lo = 0.96, hi = 1.04, N = 5` on the
unit cell yields 5 structures with volumes `0.96 V0, …, 1.04 V0`, endpoints
`0.96` and `1.04` included. -/
theorem set_volumes_spec_witness :
    ∃ out, EOS.set_volumes [(1 : Matrix (Fin 3) (Fin 3) ℝ)] 0.96 1.04 5 = some out ∧
      out.length = 5 ∧
      (∀ i < 5, EOS.volume (out.getD i 0)
        = (0.96 + (1.04 - 0.96) * i / (((5 : ℕ) : ℝ) - 1)) * EOS.volume 1) ∧
      (∀ i < 5, (EOS.linspace 0.96 1.04 5).getD i 0
        = 0.96 + (1.04 - 0.96) * i / (((5 : ℕ) : ℝ) - 1)) ∧
      (2 ≤ 5 → (EOS.linspace 0.96 1.04 5).getD 0 0 = 0.96 ∧
        (EOS.linspace 0.96 1.04 5).getD (5 - 1) 0 = 1.04) :=
  set_volumes_spec 1 0.96 1.04 5 (by norm_num) (by norm_num)

/-- The converted frequency of one eigenvalue is negative exactly when the
eigenvalue is negative. -/
theorem vib_term_neg_iff (e : ℚ) :
    ((if e < 0 then (-1 : ℝ) else 1)
        * (Real.sqrt |(e : ℝ)| / (2 * Real.pi) * Vib.conversion) < 0) ↔ e < 0 := by
  have hconv : 0 < Vib.conversion := by
    unfold Vib.conversion Vib.c_light
    norm_num
  by_cases h : e < 0
  · have hsq : 0 < Real.sqrt |(e : ℝ)| := by
      apply Real.sqrt_pos.mpr
      apply abs_pos.mpr
      exact ne_of_lt (by exact_mod_cast h)
    have hp : 0 < Real.sqrt |(e : ℝ)| / (2 * Real.pi) * Vib.conversion := by
      apply mul_pos _ hconv
      apply div_pos hsq
      have := Real.pi_pos
      linarith
    simp only [if_pos h]
    constructor
    · intro _; exact h
    · intro _; nlinarith
  · have h0 : 0 ≤ Real.sqrt |(e : ℝ)| / (2 * Real.pi) * Vib.conversion := by
      apply mul_nonneg _ (le_of_lt hconv)
      apply div_nonneg (Real.sqrt_nonneg _)
      have := Real.pi_pos
      linarith
    simp only [if_neg h]
    constructor
    · intro hc; nlinarith
    · intro hc; exact absurd hc h

/-- The magnitude of the converted frequency of one eigenvalue. -/
theorem vib_term_abs (e : ℚ) :
    |(if e < 0 then (-1 : ℝ) else 1)
        * (Real.sqrt |(e : ℝ)| / (2 * Real.pi) * Vib.conversion)|
      = Real.sqrt |(e : ℝ)| / (2 * Real.pi) * Vib.conversion := by
  have hconv : 0 < Vib.conversion := by
    unfold Vib.conversion Vib.c_light
    norm_num
  have h0 : 0 ≤ Real.sqrt |(e : ℝ)| / (2 * Real.pi) * Vib.conversion := by
    apply mul_nonneg _ (le_of_lt hconv)
    apply div_nonneg (Real.sqrt_nonneg _)
    have := Real.pi_pos
    linarith
  by_cases h : e < 0 <;>
    simp [h, abs_mul, abs_of_nonneg h0]

/-- C6: vibrational post-processing converts each eigenvalue `e` of the
dynamical matrix to a frequency of magnitude
`sqrt(|e|)/(2π) * 1e12/(c_m_per_s * 100)` while preserving sign: the output
at each rank of the descending-sorted eigenvalue order is negative exactly
when the eigenvalue at that rank is negative, and the number of negative
entries equals the number of negative eigenvalues — so one negative
eigenvalue yields exactly one negative frequency, at that eigenvalue's
sorted rank. -/
theorem vib_frequencies_sign_spec (eig_vals : List ℚ) :
    (Vib.frequencies eig_vals).length = eig_vals.length ∧
    List.Perm (Vib.sortDescend eig_vals) eig_vals ∧
    (Vib.sortDescend eig_vals).Sorted (· ≥ ·) ∧
    (∀ i : ℕ, (Vib.frequencies eig_vals).getD i 0 < 0 ↔
      (Vib.sortDescend eig_vals).getD i 0 < 0) ∧
    (∀ i : ℕ, |(Vib.frequencies eig_vals).getD i 0|
      = Real.sqrt |(((Vib.sortDescend eig_vals).getD i 0 : ℚ) : ℝ)|
          / (2 * Real.pi) * Vib.conversion) ∧
    Vib.conversion = 1e12 / (299792458 * 100) ∧
    (Vib.frequencies eig_vals).countP (fun f => decide (f < 0))
      = eig_vals.countP (fun e => decide (e < 0)) := by
  have hperm : List.Perm (Vib.sortDescend eig_vals) eig_vals :=
    (List.reverse_perm _).trans (List.mergeSort_perm _ _)
  have hlen : (Vib.frequencies eig_vals).length = (Vib.sortDescend eig_vals).length := by
    simp [Vib.frequencies]
  refine ⟨by rw [hlen]; exact hperm.length_eq, hperm, ?_, ?_, ?_, rfl, ?_⟩
  · apply List.pairwise_reverse.mpr
    exact List.sorted_mergeSort' _
  · intro i
    by_cases hi : i < (Vib.sortDescend eig_vals).length
    · rw [Vib.frequencies, getD_map_of_lt _ _ _ 0 _ hi]
      exact vib_term_neg_iff _
    · rw [List.getD_eq_default _ _ (by omega : (Vib.sortDescend eig_vals).length ≤ i),
        List.getD_eq_default _ _ (by rw [hlen]; omega : (Vib.frequencies eig_vals).length ≤ i)]
      simp
  · intro i
    by_cases hi : i < (Vib.sortDescend eig_vals).length
    · rw [Vib.frequencies, getD_map_of_lt _ _ _ 0 _ hi]
      exact vib_term_abs _
    · rw [List.getD_eq_default _ _ (by omega : (Vib.sortDescend eig_vals).length ≤ i),
        List.getD_eq_default _ _ (by rw [hlen]; omega : (Vib.frequencies eig_vals).length ≤ i)]
      simp
  · have h1 : (Vib.frequencies eig_vals).countP (fun f => decide (f < 0))
        = (Vib.sortDescend eig_vals).countP (fun e => decide (e < 0)) := by
      rw [Vib.frequencies, List.countP_map]
      apply List.countP_congr
      intro e _
      constructor
      · intro he
        simp only [Function.comp_apply, decide_eq_true_eq] at he ⊢
        exact (vib_term_neg_iff e).mp he
      · intro he
        simp only [decide_eq_true_eq] at he
        simp only [Function.comp_apply, decide_eq_true_eq]
        exact (vib_term_neg_iff e).mpr he
    rw [h1]
    exact hperm.countP_eq _

/-- Decimal digit characters: value recovery and separator-freeness. -/
theorem digitChar_spec (d : ℕ) (h : d < 10) :
    (Nat.digitChar d).toNat - 48 = d ∧ Nat.digitChar d ≠ ',' ∧ Nat.digitChar d ≠ ':' := by
  interval_cases d <;> exact ⟨by decide, by decide, by decide⟩

/-- `parseNat` consumes a trailing digit. -/
theorem parseNat_append (cs : List Char) (c : Char) :
    DPTools.parseNat (cs ++ [c]) = 10 * DPTools.parseNat cs + (c.toNat - 48) := by
  unfold DPTools.parseNat
  rw [List.foldl_append]
  rfl

/-- `parseNat` reads back a most-significant-first digit rendering. -/
theorem parseNat_ofDigits (ds : List ℕ) (h : ∀ d ∈ ds, d < 10) :
    DPTools.parseNat (ds.reverse.map Nat.digitChar) = Nat.ofDigits 10 ds := by
  induction ds with
  | nil => rfl
  | cons d tl ih =>
    rw [List.reverse_cons, List.map_append, List.map_cons, List.map_nil,
      parseNat_append, ih (fun x hx => h x (by simp [hx])),
      (digitChar_spec d (h d (by simp))).1, Nat.ofDigits_cons]
    ring

/-- Round trip of the decimal rendering used by `typemap2str`. -/
theorem parseNat_natChars (n : ℕ) : DPTools.parseNat (DPTools.natChars n) = n := by
  unfold DPTools.natChars
  by_cases h : n = 0
  · subst h
    decide
  · rw [if_neg h,
      parseNat_ofDigits _ (fun d hd => Nat.digits_lt_base (by norm_num) hd)]
    exact Nat.ofDigits_digits 10 n

/-- Digit renderings contain no comma. -/
theorem natChars_no_comma (n : ℕ) : ',' ∉ DPTools.natChars n := by
  unfold DPTools.natChars
  by_cases h : n = 0
  · subst h
    decide
  · rw [if_neg h]
    intro hmem
    rw [List.mem_map] at hmem
    obtain ⟨d, hd, hde⟩ := hmem
    rw [List.mem_reverse] at hd
    exact (digitChar_spec d (Nat.digits_lt_base (by norm_num) hd)).2.1 hde

/-- Digit renderings contain no colon. -/
theorem natChars_no_colon (n : ℕ) : ':' ∉ DPTools.natChars n := by
  unfold DPTools.natChars
  by_cases h : n = 0
  · subst h
    decide
  · rw [if_neg h]
    intro hmem
    rw [List.mem_map] at hmem
    obtain ⟨d, hd, hde⟩ := hmem
    rw [List.mem_reverse] at hd
    exact (digitChar_spec d (Nat.digits_lt_base (by norm_num) hd)).2.2 hde

set_option maxRecDepth 8000 in
/-- No legal chemical symbol contains a comma or a colon. -/
theorem chemical_symbols_no_sep :
    ∀ s ∈ DPTools.chemical_symbols, ¬ (',' ∈ s) ∧ ¬ (':' ∈ s) := by decide

/-- Splitting `key:value` at the colon recovers the two fields. -/
theorem splitOn_colon_pair (k nc : List Char) (hk : ':' ∉ k) (hnc : ':' ∉ nc) :
    (k ++ ':' :: nc).splitOn ':' = [k, nc] := by
  have h : k ++ ':' :: nc = [':'].intercalate [k, nc] := by
    simp [List.intercalate]
  rw [h]
  apply List.splitOn_intercalate
  · intro l hl
    simp only [List.mem_cons, List.not_mem_nil, or_false] at hl
    rcases hl with rfl | rfl
    · exact hk
    · exact hnc
  · simp

/-- C8: for every non-empty symbol-to-index type map whose keys are legal
chemical symbols (values being the non-negative integer indices the
repository stores), serializing to the compact `"Sym1:idx1,Sym2:idx2,..."`
string form and deserializing yields the original mapping. -/
theorem typemap_roundtrip (m : List (List Char × ℕ)) (hne : m ≠ [])
    (hkeys : ∀ kv ∈ m, kv.1 ∈ DPTools.chemical_symbols) :
    DPTools.str2typemap (DPTools.typemap2str m) = m := by
  obtain ⟨⟨k0, v0⟩, rest, rfl⟩ : ∃ kv rest, m = kv :: rest := by
    cases m with
    | nil => exact absurd rfl hne
    | cons kv rest => exact ⟨kv, rest, rfl⟩
  have hk0 : k0 ∈ DPTools.chemical_symbols := hkeys (k0, v0) (by simp)
  have hcheck : DPTools.check_type_map ((k0, v0) :: rest)
      = Sum.inl ((k0, v0) :: rest) := by
    simp [DPTools.check_type_map, hk0]
  have hts : DPTools.typemap2str ((k0, v0) :: rest)
      = [','].intercalate (((k0, v0) :: rest).map
          (fun kv => kv.1 ++ ':' :: DPTools.natChars kv.2)) := by
    unfold DPTools.typemap2str
    rw [hcheck]
  have hno : ∀ l ∈ ((k0, v0) :: rest).map
      (fun kv => kv.1 ++ ':' :: DPTools.natChars kv.2), ',' ∉ l := by
    intro l hl
    rw [List.mem_map] at hl
    obtain ⟨⟨k, v⟩, hkv, rfl⟩ := hl
    intro hc
    rcases List.mem_append.mp hc with hc | hc
    · exact (chemical_symbols_no_sep k (hkeys (k, v) hkv)).1 hc
    · rcases List.mem_cons.mp hc with hc | hc
      · exact absurd hc (by decide)
      · exact natChars_no_comma v hc
  have hne2 : ((k0, v0) :: rest).map
      (fun kv => kv.1 ++ ':' :: DPTools.natChars kv.2) ≠ [] := by simp
  rw [hts]
  unfold DPTools.str2typemap
  rw [List.splitOn_intercalate _ ',' hno hne2, List.map_map]
  have hid : ∀ kv ∈ (k0, v0) :: rest,
      ((fun i => ((i.splitOn ':').headD [],
          DPTools.parseNat ((i.splitOn ':').getLastD [])))
        ∘ (fun kv => kv.1 ++ ':' :: DPTools.natChars kv.2)) kv = id kv := by
    intro kv hkv
    obtain ⟨k, v⟩ := kv
    have hkc : ':' ∉ k := (chemical_symbols_no_sep k (hkeys (k, v) hkv)).2
    simp only [Function.comp_apply, id_eq]
    rw [splitOn_colon_pair k (DPTools.natChars v) hkc (natChars_no_colon v)]
    simp [parseNat_natChars]
  rw [List.map_congr_left hid, List.map_id]

/-- Witness for C8: the map `{Si: 0, O: 1}` serializes to `"Si:0,O:1"` and
deserializes back to itself. -/
theorem typemap_roundtrip_witness :
    DPTools.str2typemap (DPTools.typemap2str [(['S', 'i'], 0), (['O'], 1)])
      = [(['S', 'i'], 0), (['O'], 1)] :=
  typemap_roundtrip [(['S', 'i'], 0), (['O'], 1)] (by simp)
    (by decide)
